import Mathlib

/-!
Verification development for the MP4-to-MP3 converter service.

The repository ships several server variants:
- src/server.js: the GET /api/convert RapidAPI variant with password auth;
- src/unnamed/part_001 (first document): the POST /api/convert yt-dlp variant;
- src/unnamed/part_001 (second document): the POST /api/convert Cobalt variant;
- the document embedded in src/Dockerfile: a RapidAPI variant whose
  downloadFile carries an explicit redirect counter capped at 5.

Pure logic (id extraction, filename sanitization, sweep conditions, session
registry updates, redirect following, response-body construction) is embedded
directly; I/O collaborators (validator.isURL, URL parsing, the upstream HTTP
responses, fs operations) are supplied as environment data.
-/

/- ===================== Video id extraction ======================
   src/server.js lines 143-154. The first regex alternates over four
   URL markers followed by a capture of exactly 11 id characters and is
   unanchored; the second is an anchored bare 11-character id. -/

/-- Character class of the regex bracket [a-zA-Z0-9_-]. -/
def isIdChar (c : Char) : Bool :=
  ('a' ≤ c && c ≤ 'z') || ('A' ≤ c && c ≤ 'Z') || ('0' ≤ c && c ≤ '9') || c = '_' || c = '-'

def watchChars : List Char := "youtube.com/watch?v=".data

def shortChars : List Char := "youtu.be/".data

def embedChars : List Char := "youtube.com/embed/".data

def vChars : List Char := "youtube.com/v/".data

/-- The four alternatives of the first regex, in alternation order. -/
def urlMarkers : List (List Char) := [watchChars, shortChars, embedChars, vChars]

/-- Match a literal marker at the head of the input, returning the remainder. -/
def stripMarker : List Char → List Char → Option (List Char)
  | [], s => some s
  | _ :: _, [] => none
  | p :: ps, c :: cs => if c = p then stripMarker ps cs else none

/-- Consume exactly n id characters, as the regex quantifier does. -/
def takeIdChars : Nat → List Char → Option (List Char)
  | 0, _ => some []
  | _ + 1, [] => none
  | n + 1, c :: cs =>
    if isIdChar c then (takeIdChars n cs).map (fun r => c :: r) else none

/-- One alternative of the first regex at a fixed start position:
the marker, then exactly 11 id characters (the capture group). -/
def tryPattern (p s : List Char) : Option (List Char) :=
  (stripMarker p s).bind (takeIdChars 11)

/-- All four alternatives at a fixed start position, in regex alternation
order. At any position at most one marker can match, since the four marker
strings are pairwise incompatible. -/
def matchUrlPatternAt (s : List Char) : Option (List Char) :=
  match tryPattern watchChars s with
  | some r => some r
  | none =>
    match tryPattern shortChars s with
    | some r => some r
    | none =>
      match tryPattern embedChars s with
      | some r => some r
      | none => tryPattern vChars s

/-- The unanchored regex search: leftmost start position wins, exactly as
the JavaScript url.match does for the first pattern. -/
def scanUrlPattern : List Char → Option (List Char)
  | [] => none
  | c :: cs =>
    match matchUrlPatternAt (c :: cs) with
    | some r => some r
    | none => scanUrlPattern cs

/-- extractVideoId of src/server.js: the unanchored URL pattern first, then
the anchored bare 11-character id pattern, null otherwise. -/
def extractVideoId (url : String) : Option String :=
  match scanUrlPattern url.data with
  | some r => some (String.mk r)
  | none =>
    if url.data.length == 11 && url.data.all isIdChar then some url else none

/-- Spec-side description of what the code actually accepts through the URL
patterns: some marker occurrence anywhere in the string, immediately followed
by 11 id characters. -/
def looseUrlOccurrence (s : List Char) : Prop :=
  ∃ p a idc rest, p ∈ urlMarkers ∧ idc.length = 11 ∧ idc.all isIdChar = true ∧
    s = a ++ (p ++ (idc ++ rest))

/- ===================== Temp file sweep ======================
   src/server.js lines 37-52 and src/unnamed/part_001 lines 96-117.
   An entry of the temp directory, together with the outcome of the fs
   operations the sweep performs on it. -/

def MAX_FILE_AGE_MS : Int := 30 * 60 * 1000

structure FsEntry where
  name : String
  mtimeMs : Int
  statOk : Bool
  unlinkOk : Bool
deriving DecidableEq, Repr

/-- part_001 cleanupOldFiles: each entry is processed in its own try/catch
with continue, so an entry is removed exactly when its stat succeeds, it is
older than the threshold and its unlink succeeds; everything else survives. -/
def cleanupOldFiles_p1 (now : Int) (files : List FsEntry) : List FsEntry :=
  files.filter fun f =>
    !(f.statOk && decide (now - f.mtimeMs > MAX_FILE_AGE_MS) && f.unlinkOk)

/-- src/server.js cleanupOldFiles: no per-entry try/catch, so the first
throwing stat or unlink aborts the loop into the outer catch and every
remaining entry is left untouched for that run. -/
def cleanupOldFiles_server (now : Int) : List FsEntry → List FsEntry
  | [] => []
  | f :: fs =>
    if f.statOk then
      if now - f.mtimeMs > MAX_FILE_AGE_MS then
        if f.unlinkOk then cleanupOldFiles_server now fs
        else f :: fs
      else f :: cleanupOldFiles_server now fs
    else f :: fs

/- ===================== Download with redirects ======================
   src/server.js lines 157-189, src/unnamed/part_001 lines 443-479, and the
   counter-guarded variant embedded in src/Dockerfile. The upstream is modelled
   as the list of responses successive requests receive. -/

inductive HttpResponse where
  | status (code : Nat) (location : Option String)
  | netError (msg : String)
deriving DecidableEq, Repr

/-- Outcome of an awaited downloadFile promise: resolved or rejected with a
message, and whether downloadFile itself unlinked the destination path. -/
structure DownloadOutcome where
  ok : Bool
  errMsg : Option String
  cleanedUp : Bool
deriving DecidableEq, Repr

/-- The redirect condition of src/server.js downloadFile. -/
def isRedirectResp : HttpResponse → Bool
  | HttpResponse.status c loc => 300 ≤ c && c < 400 && loc.isSome
  | HttpResponse.netError _ => false

/-- src/server.js downloadFile: makeRequest recurses on every 3xx-with-location
response with no counter; a non-200 terminal status rejects without deleting
the already-created write-stream file; a request error deletes it. A response
list that is all redirects never settles (none). -/
def downloadFile_server : List HttpResponse → Option DownloadOutcome
  | [] => none
  | HttpResponse.netError m :: _ => some ⟨false, some m, true⟩
  | HttpResponse.status c loc :: rest =>
    if 300 ≤ c && c < 400 && loc.isSome then downloadFile_server rest
    else if c = 200 then some ⟨true, none, false⟩
    else some ⟨false, some ("Download failed with status " ++ toString c), false⟩

/-- Cobalt-variant downloadFile of part_001: follows only 301/302, again with
no counter; the write stream is only created once a 200 arrives, and a request
error rejects without unlinking. -/
def downloadFile_p1 : List HttpResponse → Option DownloadOutcome
  | [] => none
  | HttpResponse.netError m :: _ => some ⟨false, some m, false⟩
  | HttpResponse.status c _ :: rest =>
    if c = 301 || c = 302 then downloadFile_p1 rest
    else if c = 200 then some ⟨true, none, false⟩
    else some ⟨false, some ("Failed to download: " ++ toString c), false⟩

/-- makeRequest of the variant embedded in src/Dockerfile: identical to the
src/server.js downloader except for an explicit redirectCount checked against
the hard ceiling 5 at the top of every request. -/
def makeRequest_bounded : Nat → List HttpResponse → Option DownloadOutcome
  | n, [] =>
    if 5 < n then some ⟨false, some "Too many redirects", false⟩ else none
  | n, r :: rest =>
    if 5 < n then some ⟨false, some "Too many redirects", false⟩
    else
      match r with
      | HttpResponse.netError m => some ⟨false, some m, true⟩
      | HttpResponse.status c loc =>
        if 300 ≤ c && c < 400 && loc.isSome then makeRequest_bounded (n + 1) rest
        else if c = 200 then some ⟨true, none, false⟩
        else some ⟨false, some ("Download failed with status " ++ toString c), false⟩

def downloadFile_bounded (resps : List HttpResponse) : Option DownloadOutcome :=
  makeRequest_bounded 0 resps

/- ===================== Filename sanitization ======================
   Model of the sanitize-filename library used by every variant: removal of
   the illegal and control character classes, the all-dots rule, Windows
   reserved base names, trailing dot/space stripping, 255 truncation. -/

def illegalChar (c : Char) : Bool :=
  c = '/' || c = '?' || c = '<' || c = '>' || c = '\\' || c = ':' || c = '*' || c = '|' || c = '"'

def controlChar (c : Char) : Bool :=
  c.toNat ≤ 0x1f || (0x80 ≤ c.toNat && c.toNat ≤ 0x9f)

/-- The Windows reserved device names con, prn, aux, nul, com0-com9, lpt0-lpt9,
checked case-insensitively against the part before any extension. -/
def isReservedBase (s : List Char) : Bool :=
  let base := (s.takeWhile (fun c => !(c = '.'))).map Char.toLower
  base = "con".data || base = "prn".data || base = "aux".data || base = "nul".data ||
    (base.length = 4 &&
      (base.take 3 = "com".data || base.take 3 = "lpt".data) &&
      (match base[3]? with
       | some c => c.isDigit
       | none => false))

/-- The two global character-class replacements of sanitize-filename. -/
def removeBadChars (s : List Char) : List Char :=
  (s.filter fun c => !illegalChar c).filter fun c => !controlChar c

/-- The reservedRe rule: a nonempty all-dots name becomes empty. -/
def applyDotRule (l : List Char) : List Char :=
  if l ≠ [] ∧ l.all (fun c => c = '.') then [] else l

/-- The windowsReservedRe rule: a reserved device name becomes empty. -/
def applyReservedRule (l : List Char) : List Char :=
  if isReservedBase l then [] else l

/-- The windowsTrailingRe rule: trailing dots and spaces are removed. -/
def dropTrailingJunk (l : List Char) : List Char :=
  (l.reverse.dropWhile fun c => c = '.' || c = ' ').reverse

def sanitizeFilename (s : String) : String :=
  String.mk ((dropTrailingJunk (applyReservedRule (applyDotRule (removeBadChars s.data)))).take 255)

/-- The substring(0, 100) cap applied by every variant. -/
def substring100 (s : String) : String := String.mk (s.data.take 100)

/-- src/server.js line 291: sanitize(title).substring(0, 100) with the
falsy-fallback to the generic name audio applied after sanitization. -/
def safeTitle_server (title : String) : String :=
  if substring100 (sanitizeFilename title) = "" then "audio"
  else substring100 (sanitizeFilename title)

/-- part_001 lines 179-181 and 518-519: the fallback to audio is applied only
to a missing or empty title before sanitization; nothing guards against
sanitization itself producing the empty string. -/
def safeTitle_p1 (title : Option String) : String :=
  substring100 (sanitizeFilename
    (match title with
     | some t => if t = "" then "audio" else t
     | none => "audio"))

/-- A filename base free of path separators (slash and backslash sit in the
illegal class) and of the control-character ranges the library removes. -/
def cleanFilenameChars (s : String) : Prop :=
  ∀ c ∈ s.data, illegalChar c = false ∧ controlChar c = false

/- ===================== Session registry ======================
   src/server.js lines 80-108. The Map is embedded as an association list in
   insertion order; Map.set updates in place or appends. -/

def SESSION_MAX_AGE_MS : Int := 24 * 60 * 60 * 1000

abbrev SessionReg := List (String × Int)

def sessionsHas (l : SessionReg) (sid : String) : Bool :=
  l.any fun e => e.1 == sid

/-- Map.set: overwrite the entry in place when the key exists, append otherwise. -/
def sessionsSet (l : SessionReg) (tok : String) (t : Int) : SessionReg :=
  if l.any (fun e => e.1 == tok) then
    l.map fun e => if e.1 == tok then (tok, t) else e
  else l ++ [(tok, t)]

/-- The eviction loop inside the auth handler: delete every entry older than
24 hours. -/
def sweepSessions (now : Int) (l : SessionReg) : SessionReg :=
  l.filter fun e => !decide (now - e.2 > SESSION_MAX_AGE_MS)

/-- Registry after a successful POST /api/auth: the code stores the fresh
token first, then runs the eviction loop over the whole registry. -/
def authSuccessRegistry (l : SessionReg) (tok : String) (now : Int) : SessionReg :=
  sweepSessions now (sessionsSet l tok now)

/- ===================== Resolver response and pipelines ====================== -/

/-- JavaScript truthiness of a possibly-absent string field. -/
def jsTruthy : Option String → Bool
  | none => false
  | some s => !(s == "")

/-- JavaScript a or-else b over a possibly-absent string. -/
def jsOr : Option String → String → String
  | none, b => b
  | some s, b => if s == "" then b else s

/-- JavaScript String.includes. -/
def strContains (s pat : String) : Bool :=
  (List.range (s.data.length + 1)).any fun i => pat.data.isPrefixOf (s.data.drop i)

structure FormatEntry where
  mimeType : Option String
  format : Option String
  url : Option String
  link : Option String
deriving DecidableEq, Repr

/-- The shape-sniffed JSON of the RapidAPI download response, restricted to
the fields src/server.js lines 256-287 inspects. -/
structure ApiConvertResponse where
  link : Option String
  url : Option String
  downloadUrl : Option String
  audio : Option (Option String × Option String)
  formats : Option (List FormatEntry)
  title : Option String
  errorField : Option String
  messageField : Option String
deriving DecidableEq, Repr

def findAudioFormat (fs : List FormatEntry) : Option FormatEntry :=
  fs.find? fun f =>
    (match f.mimeType with
     | some m => strContains m "audio"
     | none => false) || f.format == some "mp3"

/-- The download-link extraction chain of src/server.js lines 256-280,
returning the chosen link field and the title. -/
def pickDownloadUrl (r : ApiConvertResponse) : Option String × String :=
  if jsTruthy r.link then (r.link, jsOr r.title "audio")
  else if jsTruthy r.url then (r.url, jsOr r.title "audio")
  else if jsTruthy r.downloadUrl then (r.downloadUrl, jsOr r.title "audio")
  else
    match r.audio with
    | some au => ((if jsTruthy au.1 then au.1 else au.2), jsOr r.title "audio")
    | none =>
      match r.formats with
      | some fs =>
        match findAudioFormat fs with
        | some f => ((if jsTruthy f.url then f.url else f.link), jsOr r.title "audio")
        | none => (none, "audio")
      | none => (none, "audio")

/-- The allow-list of part_001 isValidYouTubeUrl. -/
def allowedDomains : List String :=
  ["youtube.com", "www.youtube.com", "m.youtube.com", "youtu.be"]

/-- part_001 isValidYouTubeUrl, over the externally computed validator.isURL
verdict and the hostname the URL parser produces. -/
def isValidYouTubeUrl (urlIsURL : Bool) (hostname : String) : Bool :=
  urlIsURL && allowedDomains.contains hostname

inductive ConvertResult where
  | errorResp (status : Nat) (error : String) (details : Option String)
  | fileResp (filename : String)
  | noResponse
deriving DecidableEq, Repr

/-- What a conversion request did: the response, whether the resolver was
reached, whether a temp path was allocated, and whether any deletion of the
temp path was attempted once the handler settled. -/
structure ConvertOutcome where
  result : ConvertResult
  resolverCalled : Bool
  tempAllocated : Bool
  cleanupAttempted : Bool
deriving DecidableEq, Repr

/-- Environment of one GET /api/convert request against src/server.js:
auth verdict, query url, the external validator verdict, the hostname of the
url, the resolver outcome, the upstream responses seen by downloadFile, the
fs.stat outcome, and whether the read-stream close event fires. -/
structure ConvertEnv where
  authed : Bool
  urlParam : Option String
  urlIsURL : Bool
  hostname : String
  resolver : Except String ApiConvertResponse
  download : List HttpResponse
  stat : Except String Nat
  streamCloses : Bool

/-- The GET /api/convert handler of src/server.js lines 232-334. The catch
handler logs and answers 500 with details but performs no unlink; the only
deletion on a failure path is the one downloadFile itself does on a request
error, and the success path unlinks on stream close. -/
def convert_server (env : ConvertEnv) : ConvertOutcome :=
  if env.authed = false then
    ⟨ConvertResult.errorResp 401 "Unauthorized" none, false, false, false⟩
  else if jsTruthy env.urlParam = false || env.urlIsURL = false then
    ⟨ConvertResult.errorResp 400 "Invalid YouTube URL" none, false, false, false⟩
  else
    match extractVideoId (env.urlParam.getD "") with
    | none =>
      ⟨ConvertResult.errorResp 400 "Could not extract video ID from URL" none, false, false, false⟩
    | some _ =>
      match env.resolver with
      | Except.error msg =>
        ⟨ConvertResult.errorResp 500 "Conversion failed. Please try again." (some msg),
          true, false, false⟩
      | Except.ok r =>
        let pick := pickDownloadUrl r
        if jsTruthy pick.1 = false then
          ⟨ConvertResult.errorResp 400
              "Could not get download link. The video might be restricted or unavailable."
              (some (jsOr r.errorField (jsOr r.messageField "Unknown error"))),
            true, false, false⟩
        else
          match downloadFile_server env.download with
          | none => ⟨ConvertResult.noResponse, true, true, false⟩
          | some out =>
            if out.ok then
              match env.stat with
              | Except.error m =>
                ⟨ConvertResult.errorResp 500 "Conversion failed. Please try again." (some m),
                  true, true, false⟩
              | Except.ok _ =>
                ⟨ConvertResult.fileResp (safeTitle_server pick.2 ++ ".mp3"),
                  true, true, env.streamCloses⟩
            else
              ⟨ConvertResult.errorResp 500 "Conversion failed. Please try again." out.errMsg,
                true, true, out.cleanedUp⟩

/-- Environment of one POST /api/convert request against the Cobalt variant
of part_001: body url, validator verdict, hostname, the Cobalt resolver
outcome (download url and filename), the upstream responses, and whether
res.download delivered without error. -/
structure CobaltEnv where
  urlParam : Option String
  urlIsURL : Bool
  hostname : String
  cobalt : Except String (String × String)
  download : List HttpResponse
  sendOk : Bool

/-- The POST /api/convert handler of part_001 lines 491-554. Both the
res.download completion callback and the catch handler unlink the temp path
whenever one was allocated, and every error body is a fixed message with no
details field. -/
def convert_p1 (env : CobaltEnv) : ConvertOutcome :=
  if jsTruthy env.urlParam = false then
    ⟨ConvertResult.errorResp 400 "URL is required" none, false, false, false⟩
  else if isValidYouTubeUrl env.urlIsURL env.hostname = false then
    ⟨ConvertResult.errorResp 400 "Invalid YouTube URL. Only YouTube links are supported." none,
      false, false, false⟩
  else
    match env.cobalt with
    | Except.error _ =>
      ⟨ConvertResult.errorResp 500 "Conversion failed. Please check the URL and try again." none,
        true, false, false⟩
    | Except.ok pr =>
      match downloadFile_p1 env.download with
      | none => ⟨ConvertResult.noResponse, true, true, false⟩
      | some out =>
        if out.ok then
          if env.sendOk then
            ⟨ConvertResult.fileResp (safeTitle_p1 (some pr.2) ++ ".mp3"), true, true, true⟩
          else
            ⟨ConvertResult.errorResp 500 "Download failed" none, true, true, true⟩
        else
          ⟨ConvertResult.errorResp 500 "Conversion failed. Please check the URL and try again." none,
            true, true, true⟩

/- Concrete environments used by the closed counterexample theorems. -/

/-- A resolver response with a usable link field. -/
def apiOkLink : ApiConvertResponse :=
  ⟨some "http://dl.example/x", none, none, none, none, some "Song", none, none⟩

/-- Valid authed request whose download URL answers a terminal 404. -/
def c1env : ConvertEnv :=
  ⟨true, some "https://www.youtube.com/watch?v=dQw4w9WgXcQ", true, "www.youtube.com",
    Except.ok apiOkLink, [HttpResponse.status 404 none], Except.ok 0, true⟩

/-- Well-formed https URL on a foreign host that embeds a recognized marker. -/
def c6env : ConvertEnv :=
  ⟨true, some "https://evil.example/youtu.be/dQw4w9WgXcQ", true, "evil.example",
    Except.error "unused", [], Except.ok 0, true⟩

/-- Valid authed request whose resolver call rejects with a raw socket error. -/
def c8env : ConvertEnv :=
  ⟨true, some "https://www.youtube.com/watch?v=dQw4w9WgXcQ", true, "www.youtube.com",
    Except.error "ECONNRESET from upstream", [], Except.ok 0, true⟩

/-- Cobalt request whose resolver suggests the filename made of slashes only. -/
def c7env : CobaltEnv :=
  ⟨some "https://youtu.be/dQw4w9WgXcQ", true, "youtu.be",
    Except.ok ("http://dl.example/a", "///"), [HttpResponse.status 200 none], true⟩

/-- Old temp-directory entry whose unlink fails. -/
def cexOldFail : FsEntry := ⟨"a.mp3", 0, true, false⟩

/-- Old temp-directory entry on which every fs operation succeeds. -/
def cexOldOk : FsEntry := ⟨"b.mp3", 0, true, true⟩

/-- Cobalt request whose download URL answers a terminal 404. -/
def w1env : CobaltEnv :=
  ⟨some "https://www.youtube.com/watch?v=dQw4w9WgXcQ", true, "www.youtube.com",
    Except.ok ("http://dl.example/x", "Song"), [HttpResponse.status 404 none], true⟩

/-- Cobalt request for a well-formed URL on a host outside the allow-list. -/
def w6env : CobaltEnv :=
  ⟨some "https://files.example/video", true, "files.example", Except.error "unused", [], true⟩

/-- Cobalt request whose resolver call rejects with a raw socket error. -/
def w8env : CobaltEnv :=
  ⟨some "https://youtu.be/dQw4w9WgXcQ", true, "youtu.be", Except.error "socket hang up", [], true⟩

/- ===================== Helper lemmas: extraction ====================== -/

theorem stripMarker_eq_some (p : List Char) : ∀ s t : List Char,
    stripMarker p s = some t ↔ s = p ++ t := by
  induction p with
  | nil => intro s t; simp [stripMarker]
  | cons a ps ih =>
    intro s t
    cases s with
    | nil => simp [stripMarker]
    | cons c cs =>
      by_cases hca : c = a
      · subst hca
        simp [stripMarker, ih]
      · simp [stripMarker, hca]

theorem takeIdChars_append (t rest : List Char) (h : t.all isIdChar = true) :
    takeIdChars t.length (t ++ rest) = some t := by
  induction t with
  | nil => simp [takeIdChars]
  | cons c cs ih =>
    simp only [List.all_cons, Bool.and_eq_true] at h
    simp [takeIdChars, h.1, ih h.2]

theorem takeIdChars_sound : ∀ (n : Nat) (s t : List Char),
    takeIdChars n s = some t →
    t.length = n ∧ t.all isIdChar = true ∧ ∃ rest, s = t ++ rest := by
  intro n
  induction n with
  | zero =>
    intro s t h
    simp only [takeIdChars, Option.some.injEq] at h
    subst h
    exact ⟨rfl, rfl, s, rfl⟩
  | succ n ih =>
    intro s t h
    cases s with
    | nil => simp [takeIdChars] at h
    | cons c cs =>
      simp only [takeIdChars] at h
      by_cases hc : isIdChar c
      · rw [if_pos hc] at h
        cases hmap : takeIdChars n cs with
        | none => rw [hmap] at h; simp at h
        | some t0 =>
          rw [hmap] at h
          simp only [Option.map_some', Option.some.injEq] at h
          subst h
          obtain ⟨hl, ha, rest, hr⟩ := ih cs t0 hmap
          exact ⟨by simp [hl], by simp [ha, hc], rest, by simp [hr]⟩
      · rw [if_neg hc] at h
        simp at h

theorem tryPattern_sound (p s r : List Char) (h : tryPattern p s = some r) :
    r.length = 11 ∧ r.all isIdChar = true ∧ ∃ rest, s = p ++ (r ++ rest) := by
  unfold tryPattern at h
  rw [Option.bind_eq_some] at h
  obtain ⟨mid, hstrip, htake⟩ := h
  obtain ⟨hl, ha, rest, hr⟩ := takeIdChars_sound 11 mid r htake
  refine ⟨hl, ha, rest, ?_⟩
  rw [(stripMarker_eq_some p s mid).mp hstrip, hr]

theorem tryPattern_complete (p idc rest : List Char)
    (h11 : idc.length = 11) (hall : idc.all isIdChar = true) :
    tryPattern p (p ++ (idc ++ rest)) = some idc := by
  unfold tryPattern
  rw [(stripMarker_eq_some p (p ++ (idc ++ rest)) (idc ++ rest)).mpr rfl]
  have := takeIdChars_append idc rest hall
  rw [h11] at this
  simp [this]

theorem matchUrlPatternAt_sound (s r : List Char) (h : matchUrlPatternAt s = some r) :
    ∃ p, p ∈ urlMarkers ∧ r.length = 11 ∧ r.all isIdChar = true ∧
      ∃ rest, s = p ++ (r ++ rest) := by
  unfold matchUrlPatternAt at h
  cases h1 : tryPattern watchChars s with
  | some r1 =>
    rw [h1] at h
    simp only [Option.some.injEq] at h
    subst h
    obtain ⟨hl, ha, rest, hr⟩ := tryPattern_sound _ _ _ h1
    exact ⟨watchChars, by simp [urlMarkers], hl, ha, rest, hr⟩
  | none =>
    rw [h1] at h
    cases h2 : tryPattern shortChars s with
    | some r2 =>
      rw [h2] at h
      simp only [Option.some.injEq] at h
      subst h
      obtain ⟨hl, ha, rest, hr⟩ := tryPattern_sound _ _ _ h2
      exact ⟨shortChars, by simp [urlMarkers], hl, ha, rest, hr⟩
    | none =>
      rw [h2] at h
      cases h3 : tryPattern embedChars s with
      | some r3 =>
        rw [h3] at h
        simp only [Option.some.injEq] at h
        subst h
        obtain ⟨hl, ha, rest, hr⟩ := tryPattern_sound _ _ _ h3
        exact ⟨embedChars, by simp [urlMarkers], hl, ha, rest, hr⟩
      | none =>
        rw [h3] at h
        obtain ⟨hl, ha, rest, hr⟩ := tryPattern_sound _ _ _ h
        exact ⟨vChars, by simp [urlMarkers], hl, ha, rest, hr⟩

theorem matchUrlPatternAt_isSome (p : List Char) (hp : p ∈ urlMarkers)
    (idc rest : List Char) (h11 : idc.length = 11) (hall : idc.all isIdChar = true) :
    matchUrlPatternAt (p ++ (idc ++ rest)) ≠ none := by
  have hc := tryPattern_complete p idc rest h11 hall
  unfold matchUrlPatternAt
  simp only [urlMarkers, List.mem_cons, List.mem_singleton, List.not_mem_nil, or_false] at hp
  rcases hp with hp | hp | hp | hp <;> subst hp
  · rw [hc]; simp
  · cases h1 : tryPattern watchChars (shortChars ++ (idc ++ rest)) with
    | some r1 => simp
    | none => rw [hc]; simp
  · cases h1 : tryPattern watchChars (embedChars ++ (idc ++ rest)) with
    | some r1 => simp
    | none =>
      cases h2 : tryPattern shortChars (embedChars ++ (idc ++ rest)) with
      | some r2 => simp
      | none => rw [hc]; simp
  · cases h1 : tryPattern watchChars (vChars ++ (idc ++ rest)) with
    | some r1 => simp
    | none =>
      cases h2 : tryPattern shortChars (vChars ++ (idc ++ rest)) with
      | some r2 => simp
      | none =>
        cases h3 : tryPattern embedChars (vChars ++ (idc ++ rest)) with
        | some r3 => simp
        | none => rw [hc]; simp

theorem matchUrlPatternAt_nil : matchUrlPatternAt [] = none := by decide

theorem scanUrlPattern_sound : ∀ s r : List Char, scanUrlPattern s = some r →
    ∃ a t, s = a ++ t ∧ matchUrlPatternAt t = some r := by
  intro s
  induction s with
  | nil => intro r h; simp [scanUrlPattern] at h
  | cons c cs ih =>
    intro r h
    rw [scanUrlPattern] at h
    cases hm : matchUrlPatternAt (c :: cs) with
    | some r0 =>
      rw [hm] at h
      simp only [Option.some.injEq] at h
      subst h
      exact ⟨[], c :: cs, rfl, hm⟩
    | none =>
      rw [hm] at h
      obtain ⟨a, t, ht, hmt⟩ := ih r h
      exact ⟨c :: a, t, by simp [ht], hmt⟩

theorem scanUrlPattern_complete : ∀ a t : List Char, matchUrlPatternAt t ≠ none →
    scanUrlPattern (a ++ t) ≠ none := by
  intro a
  induction a with
  | nil =>
    intro t ht
    cases t with
    | nil => exact absurd matchUrlPatternAt_nil ht
    | cons c cs =>
      simp only [List.nil_append]
      rw [scanUrlPattern]
      cases hm : matchUrlPatternAt (c :: cs) with
      | some r => simp
      | none => exact absurd hm ht
  | cons c a ih =>
    intro t ht
    simp only [List.cons_append]
    rw [scanUrlPattern]
    cases hm : matchUrlPatternAt (c :: (a ++ t)) with
    | some r => simp
    | none => exact ih t ht

/- ===================== Claim C5 ====================== -/

/-- Claim C5, counterexample. The claim demands anchored whole-token matching
and that every string other than the recognized forms yields no id, yet
extractVideoId accepts a sentence containing spaces (so certainly not a single
watch, short, embed or bare-id token, since its length is not 11 and it holds
characters outside the id alphabet) and returns the id embedded in it. -/
theorem extractVideoId_accepts_embedded_url :
    extractVideoId "see https://youtu.be/dQw4w9WgXcQ today" = some "dQw4w9WgXcQ"
    ∧ "see https://youtu.be/dQw4w9WgXcQ today".data.length ≠ 11
    ∧ "see https://youtu.be/dQw4w9WgXcQ today".data.all isIdChar = false := by
  refine ⟨by decide, by decide, by decide⟩

/-- Claim C5, amended. Extraction succeeds exactly on strings containing one
of the four URL markers somewhere (unanchored), immediately followed by 11 id
characters, or on an anchored bare 11-character id; in particular a bare id
embedded in a longer string without a marker is still rejected, but a marker
plus id embedded in any longer string is accepted. -/
theorem extractVideoId_loose_characterization (url : String) :
    (extractVideoId url).isSome = true ↔
      (looseUrlOccurrence url.data ∨
        (url.data.length = 11 ∧ url.data.all isIdChar = true)) := by
  constructor
  · intro h
    unfold extractVideoId at h
    cases hs : scanUrlPattern url.data with
    | some r =>
      left
      obtain ⟨a, t, hsplit, hm⟩ := scanUrlPattern_sound url.data r hs
      obtain ⟨p, hp, h11, hall, rest, ht⟩ := matchUrlPatternAt_sound t r hm
      exact ⟨p, a, r, rest, hp, h11, hall, by rw [hsplit, ht]⟩
    | none =>
      rw [hs] at h
      right
      by_cases hb : (url.data.length == 11 && url.data.all isIdChar) = true
      · simp only [Bool.and_eq_true, beq_iff_eq] at hb
        exact hb
      · rw [if_neg hb] at h
        simp at h
  · intro h
    unfold extractVideoId
    cases hs : scanUrlPattern url.data with
    | some r => simp
    | none =>
      rcases h with ⟨p, a, idc, rest, hp, h11, hall, hsplit⟩ | ⟨hl, hall⟩
      · exfalso
        have hne := scanUrlPattern_complete a (p ++ (idc ++ rest))
          (matchUrlPatternAt_isSome p hp idc rest h11 hall)
        rw [← hsplit] at hne
        exact hne hs
      · rw [if_pos (by simp [hl, hall])]
        simp

/-- Claim C5, witness for the amended characterization: the bare id form is
accepted through the right-to-left direction. -/
theorem extractVideoId_loose_witness :
    (extractVideoId "dQw4w9WgXcQ").isSome = true :=
  (extractVideoId_loose_characterization "dQw4w9WgXcQ").mpr (Or.inr (by decide))

/- ===================== Claim C10 ====================== -/

/-- Claim C10: whenever extraction returns an id, that id has exactly 11
characters, all of them ASCII letters, digits, underscore or hyphen. -/
theorem extractVideoId_id_shape (url id : String) (h : extractVideoId url = some id) :
    id.length = 11 ∧ id.data.all isIdChar = true := by
  unfold extractVideoId at h
  cases hs : scanUrlPattern url.data with
  | some r =>
    rw [hs] at h
    simp only [Option.some.injEq] at h
    subst h
    obtain ⟨a, t, _, hm⟩ := scanUrlPattern_sound url.data r hs
    obtain ⟨p, _, h11, hall, _, _⟩ := matchUrlPatternAt_sound t r hm
    exact ⟨h11, hall⟩
  | none =>
    rw [hs] at h
    by_cases hb : (url.data.length == 11 && url.data.all isIdChar) = true
    · rw [if_pos hb] at h
      simp only [Option.some.injEq] at h
      subst h
      simp only [Bool.and_eq_true, beq_iff_eq] at hb
      exact hb
    · rw [if_neg hb] at h
      cases h

/-- Claim C10, witness at a concrete full watch URL. -/
theorem extractVideoId_id_shape_witness :
    ("dQw4w9WgXcQ" : String).length = 11 ∧ "dQw4w9WgXcQ".data.all isIdChar = true :=
  extractVideoId_id_shape "https://www.youtube.com/watch?v=dQw4w9WgXcQ" "dQw4w9WgXcQ" (by decide)

/- ===================== Claim C2 ====================== -/

/-- Claim C2: on a sweep run in which every stat and unlink succeeds, both
sweep implementations delete exactly the entries whose modification time is
older than the 30-minute threshold; entries at or newer than the threshold
survive unchanged (the result is the filter keeping them in order). -/
theorem sweep_deletes_iff_old (now : Int) (files : List FsEntry)
    (hok : ∀ f ∈ files, f.statOk = true ∧ f.unlinkOk = true) :
    cleanupOldFiles_server now files
        = files.filter (fun f => decide (now - f.mtimeMs ≤ MAX_FILE_AGE_MS))
    ∧ cleanupOldFiles_p1 now files
        = files.filter (fun f => decide (now - f.mtimeMs ≤ MAX_FILE_AGE_MS))
    ∧ ∀ f ∈ files,
        (f ∈ cleanupOldFiles_server now files ↔ now - f.mtimeMs ≤ MAX_FILE_AGE_MS) := by
  have hserver : cleanupOldFiles_server now files
      = files.filter (fun f => decide (now - f.mtimeMs ≤ MAX_FILE_AGE_MS)) := by
    induction files with
    | nil => rfl
    | cons f fs ih =>
      obtain ⟨hstat, hunlink⟩ := hok f (by simp)
      have ihs := ih fun g hg => hok g (by simp [hg])
      by_cases hold : now - f.mtimeMs > MAX_FILE_AGE_MS
      · have hnle : ¬(now - f.mtimeMs ≤ MAX_FILE_AGE_MS) := not_le.mpr hold
        rw [sub_le_iff_le_add] at hnle
        simp [cleanupOldFiles_server, hstat, hunlink, hold, List.filter_cons, hnle, ihs]
      · have hle : now - f.mtimeMs ≤ MAX_FILE_AGE_MS := not_lt.mp hold
        rw [sub_le_iff_le_add] at hle
        simp [cleanupOldFiles_server, hstat, hold, List.filter_cons, hle, ihs]
  have hp1 : cleanupOldFiles_p1 now files
      = files.filter (fun f => decide (now - f.mtimeMs ≤ MAX_FILE_AGE_MS)) := by
    unfold cleanupOldFiles_p1
    apply List.filter_congr
    intro f hf
    obtain ⟨hstat, hunlink⟩ := hok f hf
    by_cases hold : now - f.mtimeMs > MAX_FILE_AGE_MS
    · simp [hstat, hunlink, hold, not_le.mpr hold]
    · simp [hstat, hold, not_lt.mp hold]
  refine ⟨hserver, hp1, ?_⟩
  intro f hf
  rw [hserver]
  simp [List.mem_filter, hf]

/-- Claim C2, witness: a sweep over one stale and one fresh entry removes
exactly the stale one in both implementations. -/
theorem sweep_deletes_iff_old_witness :
    (∀ f ∈ [cexOldOk, FsEntry.mk "new.mp3" 9500000 true true],
        f.statOk = true ∧ f.unlinkOk = true)
    ∧ (cleanupOldFiles_server 10000000 [cexOldOk, FsEntry.mk "new.mp3" 9500000 true true]
          = [cexOldOk, FsEntry.mk "new.mp3" 9500000 true true].filter
              (fun f => decide (10000000 - f.mtimeMs ≤ MAX_FILE_AGE_MS))
        ∧ cleanupOldFiles_p1 10000000 [cexOldOk, FsEntry.mk "new.mp3" 9500000 true true]
          = [cexOldOk, FsEntry.mk "new.mp3" 9500000 true true].filter
              (fun f => decide (10000000 - f.mtimeMs ≤ MAX_FILE_AGE_MS))
        ∧ ∀ f ∈ [cexOldOk, FsEntry.mk "new.mp3" 9500000 true true],
            (f ∈ cleanupOldFiles_server 10000000 [cexOldOk, FsEntry.mk "new.mp3" 9500000 true true]
              ↔ 10000000 - f.mtimeMs ≤ MAX_FILE_AGE_MS)) :=
  ⟨by decide, sweep_deletes_iff_old 10000000 [cexOldOk, FsEntry.mk "new.mp3" 9500000 true true]
      (by decide)⟩

/- ===================== Claim C3 ====================== -/

/-- Claim C3, counterexample. In the src/server.js sweep, an entry whose
unlink fails aborts the loop: the second entry is older than the threshold
with all its operations succeeding, yet it survives the run, while the
part_001 sweep deletes it. -/
theorem server_sweep_halts_on_failure :
    cleanupOldFiles_server 10000000 [cexOldFail, cexOldOk] = [cexOldFail, cexOldOk]
    ∧ 10000000 - cexOldOk.mtimeMs > MAX_FILE_AGE_MS
    ∧ cexOldOk.statOk = true ∧ cexOldOk.unlinkOk = true
    ∧ cleanupOldFiles_p1 10000000 [cexOldFail, cexOldOk] = [cexOldFail] := by
  refine ⟨by decide, by decide, by decide, by decide, by decide⟩

/-- Claim C3, amended: in the part_001 sweep a failing entry is merely
skipped — the rest of the run is exactly what it would have been, and every
later entry older than the threshold whose operations succeed is still
deleted. (The src/server.js sweep instead aborts the run, see the
counterexample.) -/
theorem p1_sweep_failure_does_not_halt (now : Int) (pre post : List FsEntry) (f : FsEntry)
    (hfail : f.statOk = false ∨ (now - f.mtimeMs > MAX_FILE_AGE_MS ∧ f.unlinkOk = false)) :
    cleanupOldFiles_p1 now (pre ++ f :: post)
        = cleanupOldFiles_p1 now pre ++ f :: cleanupOldFiles_p1 now post
    ∧ ∀ g ∈ post, g.statOk = true → g.unlinkOk = true →
        now - g.mtimeMs > MAX_FILE_AGE_MS →
        g ∉ cleanupOldFiles_p1 now (pre ++ f :: post) := by
  have hkeep : (!(f.statOk && decide (now - f.mtimeMs > MAX_FILE_AGE_MS) && f.unlinkOk)) = true := by
    rcases hfail with h | ⟨h1, h2⟩
    · simp [h]
    · simp [h2]
  constructor
  · simp only [cleanupOldFiles_p1, List.filter_append, List.filter_cons, hkeep]
    simp
  · intro g hg h1 h2 h3
    simp only [cleanupOldFiles_p1, List.mem_filter]
    intro hcon
    have := hcon.2
    simp [h1, h2, h3] at this

/-- Claim C3, witness for the amended statement, at a concrete failing entry
followed by a deletable stale entry. -/
theorem p1_sweep_failure_does_not_halt_witness :
    (cexOldFail.statOk = false ∨
      (10000000 - cexOldFail.mtimeMs > MAX_FILE_AGE_MS ∧ cexOldFail.unlinkOk = false))
    ∧ (cleanupOldFiles_p1 10000000 ([] ++ cexOldFail :: [cexOldOk])
          = cleanupOldFiles_p1 10000000 [] ++ cexOldFail :: cleanupOldFiles_p1 10000000 [cexOldOk]
        ∧ ∀ g ∈ [cexOldOk], g.statOk = true → g.unlinkOk = true →
            10000000 - g.mtimeMs > MAX_FILE_AGE_MS →
            g ∉ cleanupOldFiles_p1 10000000 ([] ++ cexOldFail :: [cexOldOk])) :=
  ⟨by decide, p1_sweep_failure_does_not_halt 10000000 [] [cexOldOk] cexOldFail (by decide)⟩

/- ===================== Claim C9 ====================== -/

/-- Entries of the filtered registry are within the age bound. -/
theorem sweepSessions_age (now : Int) (l : SessionReg) :
    ∀ e ∈ sweepSessions now l, ¬(now - e.2 > SESSION_MAX_AGE_MS) := by
  intro e he
  rw [sweepSessions, List.mem_filter] at he
  have := he.2
  simpa using of_decide_eq_true (by simpa using this)

/-- A token absent from a registry is absent from its filtered version. -/
theorem sweepSessions_has_false (now : Int) (l : SessionReg) (s : String)
    (h : sessionsHas l s = false) : sessionsHas (sweepSessions now l) s = false := by
  rw [sessionsHas, List.any_eq_false]
  intro e he
  rw [sweepSessions, List.mem_filter] at he
  rw [sessionsHas, List.any_eq_false] at h
  exact h e he.1

/-- Claim C9: a successful authentication with a fresh token leaves the
registry in exactly the state described by evict-then-record — every entry
older than 24 hours is gone, the new token is recorded and accepted by the
membership check, any token recognized by neither the old registry nor the
new mint stays rejected, and no surviving entry is older than 24 hours. -/
theorem auth_records_and_evicts (l : SessionReg) (tok : String) (now : Int)
    (hfresh : sessionsHas l tok = false) :
    authSuccessRegistry l tok now = sessionsSet (sweepSessions now l) tok now
    ∧ sessionsHas (authSuccessRegistry l tok now) tok = true
    ∧ (∀ s, sessionsHas l s = false → s ≠ tok →
        sessionsHas (authSuccessRegistry l tok now) s = false)
    ∧ ∀ e ∈ authSuccessRegistry l tok now, ¬(now - e.2 > SESSION_MAX_AGE_MS) := by
  have hany : (l.any fun e => e.1 == tok) = false := hfresh
  have hset : sessionsSet l tok now = l ++ [(tok, now)] := by
    rw [sessionsSet, if_neg (by simp [hany])]
  have hkeepNew : (!decide (now - now > SESSION_MAX_AGE_MS)) = true := by
    simp [SESSION_MAX_AGE_MS]
  have hmain : authSuccessRegistry l tok now = sweepSessions now l ++ [(tok, now)] := by
    rw [authSuccessRegistry, hset, sweepSessions, List.filter_append]
    rw [show sweepSessions now l = List.filter (fun e => !decide (now - e.2 > SESSION_MAX_AGE_MS)) l from rfl]
    congr 1
    simp [hkeepNew]
    norm_num [SESSION_MAX_AGE_MS]
  have hsweepAny : (sweepSessions now l).any (fun e => e.1 == tok) = false :=
    sweepSessions_has_false now l tok hfresh
  refine ⟨?_, ?_, ?_, ?_⟩
  · rw [hmain, sessionsSet, if_neg (by simp [show ((sweepSessions now l).any fun e => e.1 == tok) = false from hsweepAny])]
  · rw [hmain, sessionsHas, List.any_append]
    simp
  · intro s hs hstok
    rw [hmain, sessionsHas, List.any_append]
    have h1 : (sweepSessions now l).any (fun e => e.1 == s) = false :=
      sweepSessions_has_false now l s hs
    simp only [sessionsHas] at h1
    simp [h1, hstok.symm]
  · rw [hmain]
    intro e he
    rcases List.mem_append.mp he with h | h
    · exact sweepSessions_age now l e h
    · simp only [List.mem_singleton] at h
      subst h
      simp [SESSION_MAX_AGE_MS]

/-- Claim C9, witness: authenticating at a registry holding one stale session
evicts it, records the fresh token, and satisfies every conclusion. -/
theorem auth_records_and_evicts_witness :
    sessionsHas [("old", 0)] "tkn" = false
    ∧ (authSuccessRegistry [("old", 0)] "tkn" 100000000
          = sessionsSet (sweepSessions 100000000 [("old", 0)]) "tkn" 100000000
        ∧ sessionsHas (authSuccessRegistry [("old", 0)] "tkn" 100000000) "tkn" = true
        ∧ (∀ s, sessionsHas [("old", 0)] s = false → s ≠ "tkn" →
            sessionsHas (authSuccessRegistry [("old", 0)] "tkn" 100000000) s = false)
        ∧ ∀ e ∈ authSuccessRegistry [("old", 0)] "tkn" 100000000,
            ¬(100000000 - e.2 > SESSION_MAX_AGE_MS)) :=
  ⟨by decide, auth_records_and_evicts [("old", 0)] "tkn" 100000000 (by decide)⟩

/- ===================== Claim C4 ====================== -/

/-- Claim C4, counterexample. The downloadFile cited by the claim
(src/server.js; the part_001 one behaves the same) has no redirect counter:
on a chain of 7 redirects followed by a 200 it happily follows all 7 and
resolves successfully, instead of failing with a too-many-redirects error
after 5. -/
theorem server_downloader_follows_seven_redirects :
    downloadFile_server
        (List.replicate 7 (HttpResponse.status 302 (some "next")) ++ [HttpResponse.status 200 none])
      = some ⟨true, none, false⟩
    ∧ downloadFile_p1
        (List.replicate 7 (HttpResponse.status 302 (some "next")) ++ [HttpResponse.status 200 none])
      = some ⟨true, none, false⟩ := by
  refine ⟨by decide, by decide⟩

/-- Rejection is immediate once the counter exceeds 5, whatever remains. -/
theorem makeRequest_bounded_over (n : Nat) (rs : List HttpResponse) (h : 5 < n) :
    makeRequest_bounded n rs = some ⟨false, some "Too many redirects", false⟩ := by
  cases rs with
  | nil => simp [makeRequest_bounded, h]
  | cons r rest => simp [makeRequest_bounded, h]

/-- Following a block of redirects adds its length to the counter. -/
theorem makeRequest_bounded_chain : ∀ (rs : List HttpResponse) (n : Nat) (tail : List HttpResponse),
    (∀ r ∈ rs, isRedirectResp r = true) → n + rs.length ≤ 6 →
    makeRequest_bounded n (rs ++ tail) = makeRequest_bounded (n + rs.length) tail := by
  intro rs
  induction rs with
  | nil => intro n tail _ _; simp
  | cons r rest ih =>
    intro n tail hall hle
    rw [List.length_cons] at hle
    have hr : isRedirectResp r = true := hall r (by simp)
    have hn : ¬(5 < n) := by omega
    cases r with
    | netError m => simp [isRedirectResp] at hr
    | status c loc =>
      simp only [isRedirectResp] at hr
      simp only [List.cons_append, makeRequest_bounded, if_neg hn, hr, if_true, List.append_eq]
      rw [ih (n + 1) tail (fun g hg => hall g (by simp [hg])) (by omega)]
      rw [List.length_cons]
      congr 1
      omega

/-- Claim C4, amended: the downloader variant embedded in src/Dockerfile does
enforce the bound — any download needing a sixth redirect is rejected with
the message Too many redirects, and any chain of at most five redirects
ending in a 200 resolves successfully. The downloaders of src/server.js and
part_001 cited by the claim have no bound at all (see the counterexample). -/
theorem bounded_downloader_caps_redirects :
    (∀ rs rest : List HttpResponse, rs.length = 6 → (∀ r ∈ rs, isRedirectResp r = true) →
      downloadFile_bounded (rs ++ rest) = some ⟨false, some "Too many redirects", false⟩)
    ∧ ∀ rs rest : List HttpResponse, rs.length ≤ 5 → (∀ r ∈ rs, isRedirectResp r = true) →
      downloadFile_bounded (rs ++ (HttpResponse.status 200 none :: rest))
        = some ⟨true, none, false⟩ := by
  constructor
  · intro rs rest hlen hall
    rw [downloadFile_bounded, makeRequest_bounded_chain rs 0 rest hall (by omega)]
    exact makeRequest_bounded_over (0 + rs.length) rest (by omega)
  · intro rs rest hlen hall
    rw [downloadFile_bounded,
      makeRequest_bounded_chain rs 0 (HttpResponse.status 200 none :: rest) hall (by omega)]
    have hn : ¬(5 < 0 + rs.length) := by omega
    simp only [makeRequest_bounded, if_neg hn]
    norm_num

/-- Claim C4, witness for the amended statement: six redirects are refused,
five redirects then a 200 succeed. -/
theorem bounded_downloader_caps_redirects_witness :
    downloadFile_bounded (List.replicate 6 (HttpResponse.status 302 (some "next")) ++ [])
        = some ⟨false, some "Too many redirects", false⟩
    ∧ downloadFile_bounded
        (List.replicate 5 (HttpResponse.status 302 (some "next"))
          ++ (HttpResponse.status 200 none :: []))
        = some ⟨true, none, false⟩ :=
  ⟨bounded_downloader_caps_redirects.1 (List.replicate 6 (HttpResponse.status 302 (some "next"))) []
      (by decide) (by decide),
    bounded_downloader_caps_redirects.2 (List.replicate 5 (HttpResponse.status 302 (some "next"))) []
      (by decide) (by decide)⟩


/- ===================== Claim C7 ====================== -/

theorem applyDotRule_subset (l : List Char) : applyDotRule l ⊆ l := by
  unfold applyDotRule
  split
  · simp
  · exact fun c hc => hc

theorem applyReservedRule_subset (l : List Char) : applyReservedRule l ⊆ l := by
  unfold applyReservedRule
  split
  · simp
  · exact fun c hc => hc

theorem dropTrailingJunk_subset (l : List Char) : dropTrailingJunk l ⊆ l := by
  intro c hc
  unfold dropTrailingJunk at hc
  rw [List.mem_reverse] at hc
  have := (List.dropWhile_sublist (fun c => c = '.' || c = ' ')).subset hc
  rwa [List.mem_reverse] at this

/-- Every character surviving sanitizeFilename went through both character
filters. -/
theorem sanitizeFilename_chars (s : String) : cleanFilenameChars (sanitizeFilename s) := by
  intro c hc
  unfold sanitizeFilename at hc
  have h1 : c ∈ dropTrailingJunk (applyReservedRule (applyDotRule (removeBadChars s.data))) :=
    List.take_subset 255 _ hc
  have h2 := applyDotRule_subset (removeBadChars s.data)
    (applyReservedRule_subset (applyDotRule (removeBadChars s.data)) (dropTrailingJunk_subset _ h1))
  unfold removeBadChars at h2
  rw [List.mem_filter] at h2
  obtain ⟨h3, hctrl⟩ := h2
  rw [List.mem_filter] at h3
  exact ⟨by simpa using h3.2, by simpa using hctrl⟩

theorem substring100_length (s : String) : (substring100 s).length ≤ 100 := by
  show (s.data.take 100).length ≤ 100
  rw [List.length_take]
  exact min_le_left 100 s.data.length

theorem substring100_chars (s : String) (h : cleanFilenameChars s) :
    cleanFilenameChars (substring100 s) := by
  intro c hc
  exact h c (List.take_subset 100 s.data hc)

theorem audio_clean : cleanFilenameChars "audio" := by
  unfold cleanFilenameChars
  decide

/-- Claim C7, counterexample. In the part_001 POST pipeline a suggested
filename made only of slashes sanitizes to the empty string and no fallback
is applied afterwards: the client receives the attachment name .mp3 with an
empty base instead of a generic non-empty name. (src/server.js, with its
fallback after sanitization, serves audio.mp3 on the same title.) -/
theorem p1_sanitized_filename_empty :
    sanitizeFilename "///" = ""
    ∧ safeTitle_p1 (some "///") = ""
    ∧ (convert_p1 c7env).result = ConvertResult.fileResp ".mp3"
    ∧ safeTitle_server "///" = "audio" := by
  refine ⟨by decide, by decide, by decide, by decide⟩

/-- Claim C7, amended: every variant strips the separator and control
classes and caps the base name at 100 characters, and src/server.js also
falls back to the generic name audio when sanitization yields the empty
string; the part_001 variants apply the audio fallback only to a missing or
empty title before sanitizing, so their served base name can be empty (see
the counterexample). -/
theorem safeTitle_properties (title : String) :
    (safeTitle_server title ≠ ""
      ∧ (safeTitle_server title).length ≤ 100
      ∧ cleanFilenameChars (safeTitle_server title))
    ∧ ((safeTitle_p1 (some title)).length ≤ 100
      ∧ cleanFilenameChars (safeTitle_p1 (some title))) := by
  constructor
  · unfold safeTitle_server
    split
    · exact ⟨by decide, by decide, audio_clean⟩
    · refine ⟨by assumption, substring100_length _, substring100_chars _ (sanitizeFilename_chars title)⟩
  · unfold safeTitle_p1
    exact ⟨substring100_length _, substring100_chars _ (sanitizeFilename_chars _)⟩

/-- Claim C7, witness for the amended statement, instantiated at a title that
mixes a path separator and keeps a nonempty remainder. -/
theorem safeTitle_properties_witness :
    (safeTitle_server "a/b" ≠ ""
      ∧ (safeTitle_server "a/b").length ≤ 100
      ∧ cleanFilenameChars (safeTitle_server "a/b"))
    ∧ ((safeTitle_p1 (some "a/b")).length ≤ 100
      ∧ cleanFilenameChars (safeTitle_p1 (some "a/b"))) :=
  safeTitle_properties "a/b"

/- ===================== Pipeline helper ====================== -/

/-- Exhaustive case analysis of the part_001 POST /api/convert handler. -/
theorem convert_p1_cases (env : CobaltEnv) :
    convert_p1 env = ⟨ConvertResult.errorResp 400 "URL is required" none, false, false, false⟩
    ∨ convert_p1 env
        = ⟨ConvertResult.errorResp 400 "Invalid YouTube URL. Only YouTube links are supported." none,
            false, false, false⟩
    ∨ convert_p1 env
        = ⟨ConvertResult.errorResp 500 "Conversion failed. Please check the URL and try again." none,
            true, false, false⟩
    ∨ convert_p1 env = ⟨ConvertResult.noResponse, true, true, false⟩
    ∨ (∃ fn, convert_p1 env = ⟨ConvertResult.fileResp fn, true, true, true⟩)
    ∨ convert_p1 env = ⟨ConvertResult.errorResp 500 "Download failed" none, true, true, true⟩
    ∨ convert_p1 env
        = ⟨ConvertResult.errorResp 500 "Conversion failed. Please check the URL and try again." none,
            true, true, true⟩ := by
  by_cases hu : jsTruthy env.urlParam = false
  · left
    simp [convert_p1, hu]
  · by_cases hv : isValidYouTubeUrl env.urlIsURL env.hostname = false
    · right; left
      simp [convert_p1, hu, hv]
    · cases hc : env.cobalt with
      | error e =>
        right; right; left
        simp [convert_p1, hu, hv, hc]
      | ok pr =>
        cases hd : downloadFile_p1 env.download with
        | none =>
          right; right; right; left
          simp [convert_p1, hu, hv, hc, hd]
        | some out =>
          by_cases ho : out.ok = true
          · by_cases hs : env.sendOk = true
            · right; right; right; right; left
              exact ⟨safeTitle_p1 (some pr.2) ++ ".mp3", by simp [convert_p1, hu, hv, hc, hd, ho, hs]⟩
            · right; right; right; right; right; left
              simp [convert_p1, hu, hv, hc, hd, ho, hs]
          · right; right; right; right; right; right
            simp [convert_p1, hu, hv, hc, hd, ho]

/- ===================== Claim C1 ====================== -/

/-- Claim C1, counterexample. In src/server.js, a conversion that fails after
the temp path is allocated because the download URL answers a terminal 404
surfaces the 500 error without any deletion attempt: the zero-byte file the
write stream created is left behind for the periodic sweep. -/
theorem server_no_cleanup_on_download_failure :
    (convert_server c1env).tempAllocated = true
    ∧ (convert_server c1env).result
        = ConvertResult.errorResp 500 "Conversion failed. Please try again."
            (some "Download failed with status 404")
    ∧ (convert_server c1env).cleanupAttempted = false := by
  refine ⟨by decide, by decide, by decide⟩

/-- Claim C1, amended: the part_001 POST pipeline does satisfy the claim —
whenever a temp path was allocated and the handler settled (success, send
failure or any caught exception), deletion of the temp file is attempted
before the response goes out. The src/server.js GET pipeline does not (see
the counterexample): its catch handler surfaces the error with no unlink,
and only a network-level request error is cleaned up, inside downloadFile. -/
theorem p1_cleanup_attempted (env : CobaltEnv)
    (h1 : (convert_p1 env).tempAllocated = true)
    (h2 : (convert_p1 env).result ≠ ConvertResult.noResponse) :
    (convert_p1 env).cleanupAttempted = true := by
  rcases convert_p1_cases env with h | h | h | h | ⟨fn, h⟩ | h | h <;>
    rw [h] at h1 h2 ⊢ <;> simp_all

/-- Claim C1, witness for the amended statement: an allocated-then-failed
download in the part_001 pipeline attempts cleanup. -/
theorem p1_cleanup_attempted_witness :
    (convert_p1 w1env).tempAllocated = true
    ∧ (convert_p1 w1env).result ≠ ConvertResult.noResponse
    ∧ (convert_p1 w1env).cleanupAttempted = true :=
  ⟨by decide, by decide, p1_cleanup_attempted w1env (by decide) (by decide)⟩

/- ===================== Claim C6 ====================== -/

/-- Claim C6, counterexample. src/server.js has no hostname allow-list: it
only checks validator.isURL and id extractability, and since the id regex is
unanchored, a well-formed https URL on a foreign host that merely embeds a
marker reaches the resolver instead of being rejected with a 400. -/
theorem server_foreign_host_reaches_resolver :
    (convert_server c6env).resolverCalled = true
    ∧ allowedDomains.contains c6env.hostname = false := by
  refine ⟨by decide, by decide⟩

/-- Claim C6, amended: the part_001 POST pipeline does validate the hostname
against the allow-list — any request whose URL hostname is outside
allowedDomains is answered with a 400 error and the resolver is never
called. The src/server.js GET pipeline performs no hostname check (see the
counterexample). -/
theorem p1_rejects_foreign_host (env : CobaltEnv)
    (hhost : allowedDomains.contains env.hostname = false) :
    (convert_p1 env).resolverCalled = false
    ∧ ∃ msg, (convert_p1 env).result = ConvertResult.errorResp 400 msg none := by
  have hv : isValidYouTubeUrl env.urlIsURL env.hostname = false := by
    unfold isValidYouTubeUrl
    rw [hhost, Bool.and_false]
  by_cases hu : jsTruthy env.urlParam = false
  · exact ⟨by simp [convert_p1, hu], "URL is required", by simp [convert_p1, hu]⟩
  · exact ⟨by simp [convert_p1, hu, hv],
      "Invalid YouTube URL. Only YouTube links are supported.", by simp [convert_p1, hu, hv]⟩

/-- Claim C6, witness for the amended statement at a concrete foreign host. -/
theorem p1_rejects_foreign_host_witness :
    allowedDomains.contains w6env.hostname = false
    ∧ ((convert_p1 w6env).resolverCalled = false
      ∧ ∃ msg, (convert_p1 w6env).result = ConvertResult.errorResp 400 msg none) :=
  ⟨by decide, p1_rejects_foreign_host w6env (by decide)⟩

/- ===================== Claim C8 ====================== -/

/-- Claim C8, counterexample. The src/server.js catch handler copies the
caught exception message verbatim into the details field of the client-visible
JSON body, so a raw upstream socket error is echoed to the client. -/
theorem server_error_body_carries_details :
    (convert_server c8env).result
      = ConvertResult.errorResp 500 "Conversion failed. Please try again."
          (some "ECONNRESET from upstream") := by decide

/-- Claim C8, amended: the part_001 POST pipeline satisfies the claim — every
error body it sends is one of four fixed short human-readable messages and
carries no details field. The src/server.js GET pipeline instead attaches a
details field holding the upstream error or message field or the caught
exception message (see the counterexample). -/
theorem p1_error_bodies_fixed (env : CobaltEnv) (st : Nat) (msg : String) (det : Option String)
    (h : (convert_p1 env).result = ConvertResult.errorResp st msg det) :
    det = none
    ∧ (msg = "URL is required"
      ∨ msg = "Invalid YouTube URL. Only YouTube links are supported."
      ∨ msg = "Conversion failed. Please check the URL and try again."
      ∨ msg = "Download failed") := by
  rcases convert_p1_cases env with hc | hc | hc | hc | ⟨fn, hc⟩ | hc | hc <;>
    rw [hc] at h <;> simp_all

/-- Claim C8, witness: a resolver failure in the part_001 pipeline produces
the fixed conversion-failed message with no details. -/
theorem p1_error_bodies_fixed_witness :
    (none : Option String) = none
    ∧ ("Conversion failed. Please check the URL and try again." = "URL is required"
      ∨ "Conversion failed. Please check the URL and try again."
          = "Invalid YouTube URL. Only YouTube links are supported."
      ∨ "Conversion failed. Please check the URL and try again."
          = "Conversion failed. Please check the URL and try again."
      ∨ "Conversion failed. Please check the URL and try again." = "Download failed") :=
  p1_error_bodies_fixed w8env 500 "Conversion failed. Please check the URL and try again." none
    (by decide)
